import Mathlib

/-!
Shallow embedding of the Chat-App repository: the WebSocket relay server
(`src/server/server.js`) and the React client session (`src/client/src/App.jsx`).

Server side: connections live in a duplicate-free list (the `clients` Set), inbound
payloads are `Option WireMsg` (JSON parse success or failure), and every
handler is a pure function from server state and event to new state plus the
list of `(connection, message)` sends it performs.

Client side: the session state holds the message list, username, join flag,
connection status string and the optional WebSocket handle, mirroring the
React state and refs; each event handler is a pure state transformer.
-/

/-- A wire message: the JSON object exchanged between client and server.
Fields are optional strings, mirroring possibly-absent JSON keys. -/
structure WireMsg where
  type : Option String
  user : Option String
  message : Option String
  timestamp : Option String
deriving DecidableEq

/-- A WebSocket connection handle: an id plus its `readyState`
(0 CONNECTING, 1 OPEN, 2 CLOSING, 3 CLOSED). -/
structure Conn where
  id : Nat
  readyState : Nat
deriving DecidableEq

/-- `WebSocket.OPEN`. -/
def WS_OPEN : Nat := 1

/-- Server state: the `clients` Set of connections.  A JS `Set` is
insertion-ordered and duplicate-free, modelled as a list with add-if-absent
and delete-all-occurrences operations. -/
structure ServerState where
  clients : List Conn
deriving DecidableEq

/-- `clients.add(ws)`: a no-op when already present. -/
def setAdd (l : List Conn) (ws : Conn) : List Conn :=
  if ws ∈ l then l else l ++ [ws]

/-- `clients.delete(ws)`: removes the connection; a no-op when absent. -/
def setDelete (l : List Conn) (ws : Conn) : List Conn :=
  l.filter (fun c => c ≠ ws)

/-- The server before any connection: `clients = new Set()`. -/
def serverInit : ServerState := ⟨[]⟩

/-- `messageData.timestamp = new Date().toISOString()`: overwrite the
timestamp field with the server-side time. -/
def stamp (now : String) (m : WireMsg) : WireMsg :=
  { m with timestamp := some now }

/-- The welcome message sent to a newly connected client. -/
def welcomeMsg (now : String) : WireMsg :=
  { type := some "system", user := none,
    message := some "Connected to chat server!", timestamp := some now }

/-- Events the server reacts to: a new connection, an inbound payload
(`none` when `JSON.parse` throws), a close, an error.  `now` carries the
wall-clock reading taken inside the handler. -/
inductive ServerEvent where
  | connect (ws : Conn) (now : String)
  | message (ws : Conn) (payload : Option WireMsg) (now : String)
  | close (ws : Conn)
  | error (ws : Conn)
deriving DecidableEq

/-- One server event handler, from `server.js`: `connection` adds the client
and sends the welcome message; `message` parses, stamps the timestamp and
sends to every client whose `readyState` is `OPEN` (parse failure is caught
and dropped); `close` and `error` delete the client from the Set. -/
def serverStep (s : ServerState) : ServerEvent → ServerState × List (Conn × WireMsg)
  | .connect ws now => (⟨setAdd s.clients ws⟩, [(ws, welcomeMsg now)])
  | .message _ payload now =>
      match payload with
      | none => (s, [])
      | some m =>
          let stamped := stamp now m
          (s, (s.clients.filter (fun c => c.readyState = WS_OPEN)).map
                (fun c => (c, stamped)))
  | .close ws => (⟨setDelete s.clients ws⟩, [])
  | .error ws => (⟨setDelete s.clients ws⟩, [])

/-- Run the server over a list of events, collecting all sends in order. -/
def serverRun (s : ServerState) : List ServerEvent → ServerState × List (Conn × WireMsg)
  | [] => (s, [])
  | e :: rest =>
      let step := serverStep s e
      let next := serverRun step.1 rest
      (next.1, step.2 ++ next.2)

/-- Does the event add connection `c` to the registry? -/
def connectsC (c : Conn) : ServerEvent → Bool
  | .connect w _ => c = w
  | _ => false

/-- Does the event remove connection `c` from the registry? -/
def killsC (c : Conn) : ServerEvent → Bool
  | .close w => c = w
  | .error w => c = w
  | _ => false

/-- The trace contains an accept of `c` with no later close or error of `c`:
`c` has completed accept and has not yet closed or errored. -/
def liveSplit (c : Conn) (events : List ServerEvent) : Prop :=
  ∃ pre e post, events = pre ++ e :: post ∧ connectsC c e = true ∧
    ∀ x ∈ post, killsC c x = false

/-- A message record as stored in the client's `messages` array: the spread
wire fields plus the `isMine` tag, and `isSystem` for system records. -/
structure DisplayedMsg where
  type : Option String
  user : Option String
  message : Option String
  timestamp : Option String
  isMine : Bool
  isSystem : Bool
deriving DecidableEq

/-- Client session state: React state (`messages`, `inputMessage`,
`username`, `hasJoined`, `connectionStatus`) plus the `ws.current` ref. -/
structure Session where
  messages : List DisplayedMsg
  inputMessage : String
  username : String
  hasJoined : Bool
  connectionStatus : String
  ws : Option Conn
deriving DecidableEq

/-- JS truthiness of an optional string field: present and non-empty. -/
def truthy : Option String → Bool
  | none => false
  | some s => s ≠ ""

/-- The `onmessage` handler from `App.jsx`: parse failure is caught and
dropped; `type === 'system'` appends a system-styled record; `type ===
'register'` is ignored; otherwise, when both `user` and `message` are truthy,
the message is appended tagged with `isMine = (user === username)`; anything
else is logged as unknown and dropped. -/
def onmessage (s : Session) (payload : Option WireMsg) : Session :=
  match payload with
  | none => s
  | some m =>
      if m.type = some "system" then
        { s with messages := s.messages ++
            [{ type := none, user := some "System", message := m.message,
               timestamp := m.timestamp, isMine := false, isSystem := true }] }
      else if m.type = some "register" then s
      else if truthy m.user && truthy m.message then
        { s with messages := s.messages ++
            [{ type := m.type, user := m.user, message := m.message,
               timestamp := m.timestamp,
               isMine := m.user == some s.username, isSystem := false }] }
      else s

/-- The `onclose` handler: sets `connectionStatus` to `'disconnected'`. -/
def onclose (s : Session) : Session :=
  { s with connectionStatus := "disconnected" }

/-- `ws.close()`: the connection transitions to CLOSED. -/
def closeConn (c : Conn) : Conn :=
  { c with readyState := 3 }

/-- The `logout` function from `App.jsx`: clears the stored username and the
join flag, empties the message list, and closes the WebSocket if present. -/
def logout (s : Session) : Session :=
  { s with username := "", hasJoined := false, messages := [],
           ws := s.ws.map closeConn }

/-- Characters removed by JavaScript `String.prototype.trim` (the common
whitespace subset). -/
def jsWhitespace (c : Char) : Bool :=
  c == ' ' || c == '\t' || c == '\n' || c == '\r'

/-- JavaScript `String.prototype.trim`: drop whitespace from both ends. -/
def jsTrim (s : String) : String :=
  ⟨((s.data.dropWhile jsWhitespace).reverse.dropWhile jsWhitespace).reverse⟩

/-- Is the session's WebSocket ref present and OPEN
(`ws.current?.readyState === WebSocket.OPEN`)? -/
def wsOpen (s : Session) : Bool :=
  match s.ws with
  | some c => c.readyState == WS_OPEN
  | none => false

/-- The session's reported state agrees with the socket: `connectionStatus`
is `'connected'` exactly when the WebSocket ref is present and OPEN. -/
@[reducible] def statusConsistent (s : Session) : Prop :=
  (s.connectionStatus = "connected") ↔ (wsOpen s = true)

/-- The `sendMessage` function from `App.jsx`: returns nothing when the
trimmed input is empty or the socket is not OPEN; otherwise builds the wire
message with `type 'message'`, the username, the trimmed input and a client
timestamp, sends it and clears the input field. -/
def sendMessage (clientNow : String) (s : Session) : Session × Option WireMsg :=
  if jsTrim s.inputMessage = "" then (s, none)
  else if wsOpen s = false then (s, none)
  else ({ s with inputMessage := "" },
        some { type := some "message", user := some s.username,
               message := some (jsTrim s.inputMessage),
               timestamp := some clientNow })

/-!  Theorems. -/

/-- Helper: a pair is among the sends of a successfully parsed inbound
payload exactly when the target is a registered OPEN connection and the
payload is the stamped message. -/
theorem mem_broadcast_iff (s : ServerState) (m : WireMsg) (now : String)
    (origin c : Conn) (v : WireMsg) :
    (c, v) ∈ (serverStep s (.message origin (some m) now)).2 ↔
      (c ∈ s.clients ∧ c.readyState = WS_OPEN ∧ v = stamp now m) := by
  simp only [serverStep, List.mem_map, List.mem_filter, decide_eq_true_eq,
    Prod.mk.injEq]
  constructor
  · rintro ⟨a, ⟨ha, hr⟩, rfl, rfl⟩
    exact ⟨ha, hr, rfl⟩
  · rintro ⟨hc, hr, rfl⟩
    exact ⟨c, ⟨hc, hr⟩, rfl, rfl⟩

/-- C2: an inbound payload parsing as a Message of kind `message` is stamped
and sent to exactly the registered connections whose channel is OPEN, the
originating connection included, and the registry is unchanged. -/
theorem broadcast_message_kind (s : ServerState) (m : WireMsg) (now : String)
    (origin : Conn) (ht : m.type = some "message")
    (ho1 : origin ∈ s.clients) (ho2 : origin.readyState = WS_OPEN) :
    (serverStep s (.message origin (some m) now)).1 = s ∧
    (∀ c v, (c, v) ∈ (serverStep s (.message origin (some m) now)).2 ↔
        (c ∈ s.clients ∧ c.readyState = WS_OPEN ∧ v = stamp now m)) ∧
    (origin, stamp now m) ∈ (serverStep s (.message origin (some m) now)).2 :=
  ⟨rfl, fun c v => mem_broadcast_iff s m now origin c v,
    (mem_broadcast_iff s m now origin origin (stamp now m)).mpr ⟨ho1, ho2, rfl⟩⟩

/-- C2 witness: instantiated at a two-client registry. -/
theorem broadcast_message_kind_witness :
    (serverStep ⟨[⟨1, 1⟩, ⟨2, 1⟩]⟩
        (.message ⟨1, 1⟩ (some ⟨some "message", some "Alice", some "hi", none⟩) "T")).1
      = ⟨[⟨1, 1⟩, ⟨2, 1⟩]⟩ ∧
    (∀ c v, (c, v) ∈ (serverStep ⟨[⟨1, 1⟩, ⟨2, 1⟩]⟩
        (.message ⟨1, 1⟩ (some ⟨some "message", some "Alice", some "hi", none⟩) "T")).2 ↔
        (c ∈ (⟨[⟨1, 1⟩, ⟨2, 1⟩]⟩ : ServerState).clients ∧ c.readyState = WS_OPEN ∧
         v = stamp "T" ⟨some "message", some "Alice", some "hi", none⟩)) ∧
    ((⟨1, 1⟩ : Conn), stamp "T" ⟨some "message", some "Alice", some "hi", none⟩) ∈
      (serverStep ⟨[⟨1, 1⟩, ⟨2, 1⟩]⟩
        (.message ⟨1, 1⟩ (some ⟨some "message", some "Alice", some "hi", none⟩) "T")).2 :=
  broadcast_message_kind ⟨[⟨1, 1⟩, ⟨2, 1⟩]⟩ ⟨some "message", some "Alice", some "hi", none⟩
    "T" ⟨1, 1⟩ rfl (by decide) rfl

/-- C3: every message broadcast for an inbound payload carries the
relay-assigned timestamp, whatever timestamp the client supplied: stamping
overwrites the field before any send. -/
theorem broadcast_timestamp_overwritten (s : ServerState) (m : WireMsg)
    (now : String) (origin c : Conn) (v : WireMsg)
    (h : (c, v) ∈ (serverStep s (.message origin (some m) now)).2) :
    v.timestamp = some now ∧ (stamp now m).timestamp = some now := by
  obtain ⟨-, -, rfl⟩ := (mem_broadcast_iff s m now origin c v).mp h
  exact ⟨rfl, rfl⟩

/-- C3 witness: a client-supplied timestamp is replaced by the server one. -/
theorem broadcast_timestamp_overwritten_witness :
    (stamp "SRV" ⟨some "message", some "Alice", some "hi", some "CLIENT"⟩).timestamp
        = some "SRV" ∧
    (stamp "SRV" ⟨some "message", some "Alice", some "hi", some "CLIENT"⟩).timestamp
        = some "SRV" :=
  broadcast_timestamp_overwritten ⟨[⟨1, 1⟩]⟩
    ⟨some "message", some "Alice", some "hi", some "CLIENT"⟩ "SRV" ⟨1, 1⟩ ⟨1, 1⟩ _
    (by decide)

/-- C5: a payload that fails to parse is dropped by both sides: the server
handler leaves the registry untouched and sends nothing, the run over any
subsequent events is exactly as if the malformed payload had never arrived,
and the client session state is unchanged. -/
theorem malformed_payload_dropped (s : ServerState) (c : Conn) (now : String)
    (rest : List ServerEvent) (cs : Session) :
    serverStep s (.message c none now) = (s, []) ∧
    serverRun s (.message c none now :: rest) = serverRun s rest ∧
    onmessage cs none = cs := by
  refine ⟨rfl, ?_, rfl⟩
  simp [serverRun, serverStep]

/-- C7: leave is total and idempotent: after `logout` and the close event it
triggers, the session is disconnected with empty identity and message list
and a closed socket, repeating the pair changes nothing, and the server
processing a duplicate close performs a second deletion that is a no-op. -/
theorem leave_idempotent (s : Session) (srv : ServerState) (c : Conn) :
    (onclose (logout s)).connectionStatus = "disconnected" ∧
    (onclose (logout s)).username = "" ∧
    (onclose (logout s)).messages = [] ∧
    (onclose (logout s)).hasJoined = false ∧
    (onclose (logout s)).ws = s.ws.map closeConn ∧
    (∀ d : Conn, (closeConn d).readyState = 3) ∧
    onclose (logout (onclose (logout s))) = onclose (logout s) ∧
    serverStep (serverStep srv (.close c)).1 (.close c)
      = ((serverStep srv (.close c)).1, []) := by
  refine ⟨rfl, rfl, rfl, rfl, rfl, fun d => rfl, ?_, ?_⟩
  · cases s with
    | mk ms im un hj cs w =>
        simp only [onclose, logout]
        cases w <;> simp [closeConn]
  · simp only [serverStep, setDelete, Prod.mk.injEq, and_true]
    congr 1
    simp [List.filter_filter]

/-- C4: a kind-`message` payload reaching the append step is appended tagged
with `isMine` computed as string equality of the message's user and the
session's identity: equal gives `true`, anything else gives `false`. -/
theorem client_isSelf_classification (s : Session) (m : WireMsg)
    (ht : m.type = some "message") (hu : truthy m.user = true)
    (hm : truthy m.message = true) :
    (onmessage s (some m)).messages = s.messages ++
      [{ type := m.type, user := m.user, message := m.message,
         timestamp := m.timestamp,
         isMine := m.user == some s.username, isSystem := false }] ∧
    ((m.user == some s.username) = true ↔ m.user = some s.username) :=
  ⟨by simp [onmessage, ht, hu, hm], by simp⟩

/-- C4 witness: a message from Alice in Alice's own session is tagged self. -/
theorem client_isSelf_classification_witness :
    (onmessage (Session.mk [] "" "Alice" true "connected" (some ⟨1, 1⟩))
        (some ⟨some "message", some "Alice", some "hi", some "T"⟩)).messages =
      [] ++ [{ type := some "message", user := some "Alice", message := some "hi",
               timestamp := some "T",
               isMine := some "Alice" == some "Alice", isSystem := false }] ∧
    ((some "Alice" == some "Alice") = true ↔ (some "Alice" : Option String) = some "Alice") :=
  client_isSelf_classification (Session.mk [] "" "Alice" true "connected" (some ⟨1, 1⟩))
    ⟨some "message", some "Alice", some "hi", some "T"⟩ rfl (by decide) (by decide)

/-- C10: a non-system, non-register payload whose `user` or `message` field
is missing or empty is not appended: the session is left unchanged. -/
theorem client_append_requires_fields (s : Session) (m : WireMsg)
    (h1 : m.type ≠ some "system") (h2 : m.type ≠ some "register")
    (hfail : (truthy m.user && truthy m.message) = false) :
    onmessage s (some m) = s := by
  simp [onmessage, h1, h2, hfail]

/-- C10 witness: a kind-`message` payload with a missing body is dropped. -/
theorem client_append_requires_fields_witness :
    onmessage (Session.mk [] "" "Alice" true "connected" (some ⟨1, 1⟩))
        (some ⟨some "message", some "Bob", none, none⟩) =
      Session.mk [] "" "Alice" true "connected" (some ⟨1, 1⟩) :=
  client_append_requires_fields _ ⟨some "message", some "Bob", none, none⟩
    (by decide) (by decide) (by decide)

/-- C9: send with blank text, or while the session is not connected,
transmits nothing and leaves the message sequence unchanged. -/
theorem send_guard_no_transmission (s : Session) (now : String)
    (hcons : statusConsistent s)
    (h : jsTrim s.inputMessage = "" ∨ s.connectionStatus ≠ "connected") :
    (sendMessage now s).2 = none ∧ (sendMessage now s).1.messages = s.messages := by
  rcases h with h | h
  · simp [sendMessage, h]
  · have hw : wsOpen s = false := by
      cases hb : wsOpen s
      · rfl
      · exact absurd (hcons.mpr hb) h
    by_cases ht : jsTrim s.inputMessage = ""
    · simp [sendMessage, ht]
    · simp [sendMessage, ht, hw]

/-- C9 witness: a disconnected session sending non-empty text sends nothing. -/
theorem send_guard_no_transmission_witness :
    (sendMessage "T" (Session.mk [] "hello" "Alice" false "disconnected" none)).2 = none ∧
    (sendMessage "T" (Session.mk [] "hello" "Alice" false "disconnected" none)).1.messages =
      (Session.mk [] "hello" "Alice" false "disconnected" none).messages :=
  send_guard_no_transmission (Session.mk [] "hello" "Alice" false "disconnected" none)
    "T" (by decide) (Or.inr (by decide))

/-- C8 counterexample: the claim says every non-empty text sent from the
connected state is transmitted with the given text as body, but a blank
(whitespace-only) text is non-empty yet `sendMessage` transmits nothing,
because the code guards on the trimmed input. -/
theorem send_blank_text_counterexample :
    (" " ≠ "") ∧
    (Session.mk [] " " "Alice" true "connected" (some ⟨1, 1⟩)).connectionStatus
      = "connected" ∧
    wsOpen (Session.mk [] " " "Alice" true "connected" (some ⟨1, 1⟩)) = true ∧
    (sendMessage "T" (Session.mk [] " " "Alice" true "connected" (some ⟨1, 1⟩))).2
      = none := by
  decide

/-- C8 amended: for every text whose trimmed form is non-empty, send from the
connected state transmits exactly the Message with kind `message`, the
session's identity as user, the trimmed text as body and the provisional
client timestamp, and clears the input field. -/
theorem send_constructs_message (s : Session) (now : String)
    (hcons : statusConsistent s) (hst : s.connectionStatus = "connected")
    (hne : jsTrim s.inputMessage ≠ "") :
    (sendMessage now s).2 = some { type := some "message", user := some s.username,
                                   message := some (jsTrim s.inputMessage),
                                   timestamp := some now } ∧
    (sendMessage now s).1 = { s with inputMessage := "" } := by
  have hw : wsOpen s = true := hcons.mp hst
  constructor <;> simp [sendMessage, hne, hw]

/-- C8 amended witness: sending " hi " transmits the trimmed body "hi". -/
theorem send_constructs_message_witness :
    (sendMessage "T" (Session.mk [] " hi " "Alice" true "connected" (some ⟨1, 1⟩))).2 =
      some { type := some "message", user := some "Alice",
             message := some (jsTrim " hi "),
             timestamp := some "T" } ∧
    (sendMessage "T" (Session.mk [] " hi " "Alice" true "connected" (some ⟨1, 1⟩))).1 =
      Session.mk [] "" "Alice" true "connected" (some ⟨1, 1⟩) :=
  send_constructs_message (Session.mk [] " hi " "Alice" true "connected" (some ⟨1, 1⟩))
    "T" (by decide) (by decide) (by decide)

/-- C1 counterexample: the claim says a successfully parsed payload of kind
`register` is not rebroadcast to any connection, but the relay has no kind
check: a register payload is stamped and sent to an open registered
connection. -/
theorem register_rebroadcast_counterexample :
    ((⟨2, 1⟩ : Conn), stamp "T" ⟨some "register", some "Alice", none, none⟩) ∈
      (serverStep ⟨[⟨1, 1⟩, ⟨2, 1⟩]⟩
        (.message ⟨1, 1⟩ (some ⟨some "register", some "Alice", none, none⟩) "T")).2 := by
  decide

/-- C1 amended: the relay rebroadcasts every successfully parsed payload
regardless of kind — any payload `m`, whatever its `type` field holds
(register included), is stamped and sent to exactly the open registered
connections, with the registry unchanged; it is the client session that
ignores register payloads, consuming them without appending. -/
theorem relay_rebroadcasts_all_kinds (s : ServerState) (m mreg : WireMsg)
    (now : String) (origin : Conn) (cs : Session)
    (hreg : mreg.type = some "register") :
    (∀ c v, (c, v) ∈ (serverStep s (.message origin (some m) now)).2 ↔
        (c ∈ s.clients ∧ c.readyState = WS_OPEN ∧ v = stamp now m)) ∧
    (serverStep s (.message origin (some m) now)).1 = s ∧
    onmessage cs (some mreg) = cs := by
  refine ⟨fun c v => mem_broadcast_iff s m now origin c v, rfl, ?_⟩
  simp [onmessage, hreg]

/-- C1 amended witness: instantiated at a two-client registry, a payload
with an unknown kind for the rebroadcast half, and a register payload for
the client-ignores half. -/
theorem relay_rebroadcasts_all_kinds_witness :
    (∀ c v, (c, v) ∈ (serverStep ⟨[⟨1, 1⟩, ⟨2, 1⟩]⟩
        (.message ⟨1, 1⟩ (some ⟨some "presence", some "Bob", some "hi", none⟩) "T")).2 ↔
        (c ∈ (⟨[⟨1, 1⟩, ⟨2, 1⟩]⟩ : ServerState).clients ∧ c.readyState = WS_OPEN ∧
         v = stamp "T" ⟨some "presence", some "Bob", some "hi", none⟩)) ∧
    (serverStep ⟨[⟨1, 1⟩, ⟨2, 1⟩]⟩
        (.message ⟨1, 1⟩ (some ⟨some "presence", some "Bob", some "hi", none⟩) "T")).1 =
      ⟨[⟨1, 1⟩, ⟨2, 1⟩]⟩ ∧
    onmessage (Session.mk [] "" "Alice" true "connected" (some ⟨1, 1⟩))
        (some ⟨some "register", some "Bob", none, none⟩) =
      Session.mk [] "" "Alice" true "connected" (some ⟨1, 1⟩) :=
  relay_rebroadcasts_all_kinds ⟨[⟨1, 1⟩, ⟨2, 1⟩]⟩
    ⟨some "presence", some "Bob", some "hi", none⟩
    ⟨some "register", some "Bob", none, none⟩ "T" ⟨1, 1⟩
    (Session.mk [] "" "Alice" true "connected" (some ⟨1, 1⟩)) rfl

/-- Membership after `clients.add`. -/
theorem mem_setAdd (l : List Conn) (w c : Conn) : c ∈ setAdd l w ↔ c = w ∨ c ∈ l := by
  by_cases h : w ∈ l
  · simp only [setAdd, if_pos h]
    exact ⟨Or.inr, fun hc => hc.elim (fun he => he ▸ h) id⟩
  · simp [setAdd, if_neg h, or_comm]

/-- Membership after `clients.delete`. -/
theorem mem_setDelete (l : List Conn) (w c : Conn) :
    c ∈ setDelete l w ↔ c ∈ l ∧ c ≠ w := by
  simp [setDelete]

/-- Deleting an absent connection is a no-op. -/
theorem setDelete_absent (l : List Conn) (w : Conn) (h : w ∉ l) : setDelete l w = l :=
  List.filter_eq_self.mpr (fun a ha => by
    simp only [decide_eq_true_eq]
    exact fun he => h (he ▸ ha))

/-- An inbound payload never changes the registry. -/
theorem serverStep_message_fst (s : ServerState) (w : Conn) (p : Option WireMsg)
    (now : String) : (serverStep s (.message w p now)).1 = s := by
  cases p <;> rfl

/-- Peeling one event off a live-accept decomposition. -/
theorem liveSplit_cons (c : Conn) (e : ServerEvent) (rest : List ServerEvent) :
    liveSplit c (e :: rest) ↔
      ((connectsC c e = true ∧ ∀ x ∈ rest, killsC c x = false) ∨ liveSplit c rest) := by
  constructor
  · rintro ⟨pre, ev, post, heq, hc, hk⟩
    cases pre with
    | nil =>
        injection heq with h1 h2
        subst h1
        subst h2
        exact Or.inl ⟨hc, hk⟩
    | cons p pre =>
        injection heq with h1 h2
        exact Or.inr ⟨pre, ev, post, h2, hc, hk⟩
  · rintro (⟨hc, hk⟩ | ⟨pre, ev, post, heq, hc, hk⟩)
    · exact ⟨[], e, rest, rfl, hc, hk⟩
    · exact ⟨e :: pre, ev, post, by simp [heq], hc, hk⟩

/-- A connection is registered after a run exactly when the trace holds an
accept of it not followed by a close or error of it, or it was registered at
the start and the trace never closes or errors it. -/
theorem mem_serverRun_clients (c : Conn) (events : List ServerEvent) :
    ∀ s : ServerState, c ∈ (serverRun s events).1.clients ↔
      (liveSplit c events ∨
        (c ∈ s.clients ∧ ∀ x ∈ events, killsC c x = false)) := by
  induction events with
  | nil =>
      intro s
      constructor
      · intro h
        exact Or.inr ⟨h, by simp⟩
      · rintro (⟨pre, ev, post, heq, -, -⟩ | ⟨h, -⟩)
        · cases pre <;> simp at heq
        · exact h
  | cons e rest ih =>
      intro s
      have h1 : (serverRun s (e :: rest)).1 = (serverRun (serverStep s e).1 rest).1 := rfl
      rw [h1, ih ((serverStep s e).1), liveSplit_cons]
      simp only [List.forall_mem_cons]
      cases e with
      | connect w now =>
          simp only [serverStep, mem_setAdd, connectsC, killsC,
            decide_eq_true_eq, Bool.false_eq_true, false_and, eq_self_iff_true,
            true_and]
          tauto
      | message w p now =>
          simp only [serverStep_message_fst, connectsC, killsC,
            Bool.false_eq_true, false_and, eq_self_iff_true, true_and]
          tauto
      | close w =>
          simp only [serverStep, mem_setDelete, connectsC, killsC,
            decide_eq_false_iff_not, Bool.false_eq_true, false_and,
            eq_self_iff_true, true_and]
          tauto
      | error w =>
          simp only [serverStep, mem_setDelete, connectsC, killsC,
            decide_eq_false_iff_not, Bool.false_eq_true, false_and,
            eq_self_iff_true, true_and]
          tauto

/-- A connection absent from the registry and never re-accepted receives no
send from any later event. -/
theorem no_sends_to_absent (c : Conn) (events : List ServerEvent) :
    ∀ s : ServerState, c ∉ s.clients →
      (∀ e ∈ events, connectsC c e = false) →
      ∀ d msg, (d, msg) ∈ (serverRun s events).2 → d ≠ c := by
  induction events with
  | nil =>
      intro s h1 h2 d msg hmem
      simp [serverRun] at hmem
  | cons e rest ih =>
      intro s hc hconn d msg hmem
      have hout : (serverRun s (e :: rest)).2 =
          (serverStep s e).2 ++ (serverRun (serverStep s e).1 rest).2 := rfl
      rw [hout, List.mem_append] at hmem
      have hce : connectsC c e = false := hconn e (List.mem_cons_self e rest)
      have hrest : ∀ x ∈ rest, connectsC c x = false :=
        fun x hx => hconn x (List.mem_cons_of_mem e hx)
      have hc2 : c ∉ (serverStep s e).1.clients := by
        cases e with
        | connect w now =>
            simp only [connectsC, decide_eq_false_iff_not] at hce
            simp only [serverStep, mem_setAdd]
            rintro (rfl | h)
            · exact hce rfl
            · exact hc h
        | message w p now =>
            rw [serverStep_message_fst]
            exact hc
        | close w =>
            rw [show (serverStep s (.close w)).1.clients = setDelete s.clients w from rfl,
              mem_setDelete]
            rintro ⟨h, -⟩
            exact hc h
        | error w =>
            rw [show (serverStep s (.error w)).1.clients = setDelete s.clients w from rfl,
              mem_setDelete]
            rintro ⟨h, -⟩
            exact hc h
      rcases hmem with hmem | hmem
      · cases e with
        | connect w now =>
            simp only [connectsC, decide_eq_false_iff_not] at hce
            simp only [serverStep, List.mem_singleton, Prod.mk.injEq] at hmem
            obtain ⟨rfl, -⟩ := hmem
            exact fun h => hce h.symm
        | message w p now =>
            cases p with
            | none => simp [serverStep] at hmem
            | some m =>
                simp only [serverStep, List.mem_map, List.mem_filter,
                  Prod.mk.injEq] at hmem
                obtain ⟨a, ⟨ha, -⟩, rfl, -⟩ := hmem
                exact fun h => hc (h ▸ ha)
        | close w => simp [serverStep] at hmem
        | error w => simp [serverStep] at hmem
      · exact ih (serverStep s e).1 hc2 hrest d msg hmem

/-- C6: a connection is registered iff it has completed accept with no later
close or error; close and error handlers remove it unconditionally; removing
an absent connection is a no-op; and after removal, as long as the
connection does not reconnect, no later broadcast targets it. -/
theorem registry_membership_characterization (c : Conn)
    (events rest : List ServerEvent) (s sAbs : ServerState)
    (habs : c ∉ sAbs.clients)
    (hrest : ∀ e ∈ rest, connectsC c e = false) :
    (c ∈ (serverRun serverInit events).1.clients ↔ liveSplit c events) ∧
    (c ∉ (serverStep s (.close c)).1.clients) ∧
    (c ∉ (serverStep s (.error c)).1.clients) ∧
    ((serverStep sAbs (.close c)).1 = sAbs) ∧
    (∀ d msg, (d, msg) ∈ (serverRun (serverStep s (.close c)).1 rest).2 → d ≠ c) := by
  refine ⟨?_, ?_, ?_, ?_, ?_⟩
  · rw [mem_serverRun_clients]
    simp [serverInit]
  · rw [show (serverStep s (.close c)).1.clients = setDelete s.clients c from rfl,
      mem_setDelete]
    rintro ⟨-, h⟩
    exact h rfl
  · rw [show (serverStep s (.error c)).1.clients = setDelete s.clients c from rfl,
      mem_setDelete]
    rintro ⟨-, h⟩
    exact h rfl
  · cases sAbs with
    | mk l => exact congrArg ServerState.mk (setDelete_absent l c habs)
  · refine no_sends_to_absent c rest (serverStep s (.close c)).1 ?_ hrest
    rw [show (serverStep s (.close c)).1.clients = setDelete s.clients c from rfl,
      mem_setDelete]
    rintro ⟨-, h⟩
    exact h rfl

/-- C6 witness: a connect registers the connection; closing deregisters it
and a later inbound broadcast does not target it. -/
theorem registry_membership_characterization_witness :
    ((⟨1, 1⟩ : Conn) ∈ (serverRun serverInit [.connect ⟨1, 1⟩ "T"]).1.clients ↔
        liveSplit ⟨1, 1⟩ [.connect ⟨1, 1⟩ "T"]) ∧
    ((⟨1, 1⟩ : Conn) ∉ (serverStep ⟨[⟨1, 1⟩, ⟨2, 1⟩]⟩ (.close ⟨1, 1⟩)).1.clients) ∧
    ((⟨1, 1⟩ : Conn) ∉ (serverStep ⟨[⟨1, 1⟩, ⟨2, 1⟩]⟩ (.error ⟨1, 1⟩)).1.clients) ∧
    ((serverStep ⟨[⟨2, 1⟩]⟩ (.close ⟨1, 1⟩)).1 = ⟨[⟨2, 1⟩]⟩) ∧
    (∀ d msg, (d, msg) ∈ (serverRun (serverStep ⟨[⟨1, 1⟩, ⟨2, 1⟩]⟩ (.close ⟨1, 1⟩)).1
        [.message ⟨2, 1⟩ (some ⟨some "message", some "Bob", some "yo", none⟩) "U"]).2 →
      d ≠ ⟨1, 1⟩) :=
  registry_membership_characterization ⟨1, 1⟩ [.connect ⟨1, 1⟩ "T"]
    [.message ⟨2, 1⟩ (some ⟨some "message", some "Bob", some "yo", none⟩) "U"]
    ⟨[⟨1, 1⟩, ⟨2, 1⟩]⟩ ⟨[⟨2, 1⟩]⟩ (by decide) (by decide)
